import Mathlib

/-!
Verification development for the orgize repository (an Org-mode parser).

The development shallowly embeds the repository's data model and the
operations the claims touch:

* `Element` and `Element.isContainer` embed the `Element` enum and its
  `is_container` method from `src/src/elements/mod.rs`.
* `metadata` / `toc` / `keywords` / `fnDefLabels` embed the line scan of
  `src/src/tools.rs` (Rust `metadata`, `toc`, `keywords`, `fn_def`).
* The tree (`Node`/`Forest`), the event iterator (`events`), the parse
  entry point (`parse`), the default HTML dispatch and the serde-style
  serialization are modelled where their implementations are not among
  the given sources; each such definition carries a doc comment starting
  with `Modelled from the spec:`.

Text is handled at the level of `List Char`; a Rust byte-level scan over
UTF-8 agrees with the character-level scan for the ASCII delimiters
(`*`, space, `#`, `+`, `[`, `:`, `]`, newline) these functions inspect,
because no UTF-8 continuation byte coincides with an ASCII code.
-/

/-- Embedding of the `Element` enum of `src/src/elements/mod.rs`.
One constructor per Rust variant, in source order.  Variants whose payload
no claim inspects are embedded without payload; the payloads that claims
do inspect (`Text`, `Keyword`, `FnDef`, `Verbatim`, `Code`, `Comment`,
`FixedWidth`, `Title`) are kept. -/
inductive Element : Type where
  | Block : Element
  | BabelCall : Element
  | Section : Element
  | Clock : Element
  | Cookie : Element
  | RadioTarget : Element
  | Drawer : Element
  | Document : Element
  | DynBlock : Element
  | FnDef (label : String) : Element
  | FnRef : Element
  | Headline : Element
  | InlineCall : Element
  | InlineSrc : Element
  | Keyword (key : String) (value : String) : Element
  | Link : Element
  | List : Element
  | ListItem : Element
  | Macros : Element
  | Planning : Element
  | Snippet : Element
  | Text (value : String) : Element
  | Paragraph : Element
  | Rule : Element
  | Timestamp : Element
  | Target : Element
  | Bold : Element
  | Strike : Element
  | Italic : Element
  | Underline : Element
  | Verbatim (value : String) : Element
  | Code (value : String) : Element
  | Comment (value : String) : Element
  | FixedWidth (value : String) : Element
  | Title (level : Nat) (keyword : Option String) (raw : String) (tags : List String) : Element
deriving DecidableEq

/-- Embedding of `Element::is_container` (`src/src/elements/mod.rs`,
lines 93-112): `Block`, `Bold`, `Document`, `DynBlock`, `Headline`,
`Italic`, `List`, `ListItem`, `Paragraph`, `Section`, `Strike`,
`Underline` and `Title` are containers; every other variant is a leaf. -/
def Element.isContainer : Element → Bool
  | .Block => true
  | .Bold => true
  | .Document => true
  | .DynBlock => true
  | .Headline => true
  | .Italic => true
  | .List => true
  | .ListItem => true
  | .Paragraph => true
  | .Section => true
  | .Strike => true
  | .Underline => true
  | .Title _ _ _ _ => true
  | _ => false

/-- The container classification exactly as the spec sentence fixes it
(spec §3, repeated in claim C1): document, section, headline, paragraph,
list, list-item, block, dynamic-block, bold, italic, strike, underline —
and nothing else.  Written from the spec's words, for comparison with
`Element.isContainer`, which is written from the source. -/
def specIsContainer : Element → Bool
  | .Document => true
  | .Section => true
  | .Headline => true
  | .Paragraph => true
  | .List => true
  | .ListItem => true
  | .Block => true
  | .DynBlock => true
  | .Bold => true
  | .Italic => true
  | .Strike => true
  | .Underline => true
  | _ => false

/-- Whether an element is a `Title`. -/
def Element.isTitle : Element → Bool
  | .Title _ _ _ _ => true
  | _ => false

mutual
/-- A node of the document tree: one `Element` plus its children (spec §3
"Node").  Mutual with `Forest` so that all recursions are structural. -/
inductive Node : Type where
  | node (el : Element) (kids : Forest) : Node
deriving DecidableEq
/-- A sibling list of `Node`s. -/
inductive Forest : Type where
  | nil : Forest
  | cons (hd : Node) (tl : Forest) : Forest
deriving DecidableEq
end

/-- The element wrapped by a node. -/
def Node.el : Node → Element
  | .node e _ => e

/-- Convert a list of nodes into a `Forest`. -/
def toForest : List Node → Forest
  | [] => .nil
  | n :: ns => .cons n (toForest ns)

/-- An event of the traversal: `Start` or `End`, as in `Event` of the
orgize crate (`src/orgize/src/lib.rs`). -/
inductive Event : Type where
  | Start (e : Element) : Event
  | End (e : Element) : Event
deriving DecidableEq

mutual
/-- Modelled from the spec: the depth-first event iterator (§4.4,
`Org::iter`); its implementation is not among the given sources.  Where
the spec and the crate's own documentation differ, the crate's
documentation in `src/orgize/src/lib.rs` (lines 51-52: "whether an
element is container or not, it will appears twice in one loop. One as
`Event::Start(element)`, one as `Event::End(element)`") is followed:
every node, container or leaf, contributes one `Start` and one `End`. -/
def events : Node → List Event
  | .node e kids => Event.Start e :: eventsF kids ++ [Event.End e]
/-- The concatenated events of a forest, in sibling order. -/
def eventsF : Forest → List Event
  | .nil => []
  | .cons n t => events n ++ eventsF t
end

mutual
/-- How many nodes of the tree wrap exactly the element `e`. -/
def countElem (e : Element) : Node → Nat
  | .node el kids => (if el = e then 1 else 0) + countElemF e kids
/-- `countElem` summed over a forest. -/
def countElemF (e : Element) : Forest → Nat
  | .nil => 0
  | .cons n t => countElem e n + countElemF e t
end

/-! ## Line segmentation

`src/src/tools.rs` iterates `src.lines().filter(|l| !l.is_empty())`.
Rust's `str::lines` splits on `'\n'`, drops the trailing empty piece
produced by a final newline, and strips one `'\r'` from the end of each
piece.  `splitOnChar`, `stripCR` and `rustLines` embed that. -/

/-- Split a character list at every occurrence of `sep` (the separators
are consumed); always returns at least one (possibly empty) piece. -/
def splitOnChar (sep : Char) : List Char → List (List Char)
  | [] => [[]]
  | c :: cs =>
    if c = sep then [] :: splitOnChar sep cs
    else
      match splitOnChar sep cs with
      | g :: gs => (c :: g) :: gs
      | [] => [[c]]

/-- Strip one trailing carriage return, as Rust's `str::lines` does. -/
def stripCR (cs : List Char) : List Char :=
  if cs.getLast? = some '\r' then cs.dropLast else cs

/-- The lines of a string, with the semantics of Rust's `str::lines`:
split on `'\n'`, drop the trailing empty piece of a final newline, strip
one trailing `'\r'` per line. -/
def rustLines (s : String) : List (List Char) :=
  let pieces := splitOnChar '\n' s.toList
  let pieces := if pieces.getLast? = some [] then pieces.dropLast else pieces
  pieces.map stripCR

/-- The non-empty lines of a string: the `filter(|l| !l.is_empty())` of
`src/src/tools.rs` line 12 applied to `rustLines`. -/
def nonEmptyLines (s : String) : List (List Char) :=
  (rustLines s).filter (fun l => l ≠ [])

/-! ## The metadata scan of `src/src/tools.rs` -/

/-- The index of the first space of a line, or its length when it has
none: `memchr(b' ', line.as_bytes()).unwrap_or_else(|| line.len())`
(`src/src/tools.rs` line 14). -/
def firstSpaceIdx : List Char → Nat
  | [] => 0
  | c :: cs => if c = ' ' then 0 else firstSpaceIdx cs + 1

/-- `line.starts_with('*')` (`src/src/tools.rs` line 13). -/
def startsWithStar : List Char → Bool
  | [] => false
  | c :: _ => c = '*'

/-- The headline summary the scan collects: the result type of
`Headline::parse` restricted to the fields the spec names (§3: nesting
level, optional todo keyword, title text, tags). -/
structure Headline where
  level : Nat
  keyword : Option String
  title : String
  tags : List String
deriving DecidableEq

/-- Modelled from the spec: the default todo keyword set
(`DEFAULT_TODO_KEYWORDS` of `src/src/headline.rs`, which is not among
the given sources).  §6 fixes "a fixed built-in set" and the §8
round-trip example requires `DONE` to be recognized by default. -/
def DEFAULT_TODO_KEYWORDS : List String := ["TODO", "DONE"]

/-- Drop spaces from both ends of a line. -/
def trimSpaces (cs : List Char) : List Char :=
  ((cs.dropWhile (fun c => c = ' ')).reverse.dropWhile (fun c => c = ' ')).reverse

/-- The space-separated words of a line. -/
def wordsOf (cs : List Char) : List (List Char) :=
  (splitOnChar ' ' cs).filter (fun w => w ≠ [])

/-- Modelled from the spec: `Headline::parse` (`src/src/headline.rs`,
not among the given sources).  Per §3 a headline carries the nesting
level (the run of leading stars), an optional todo keyword (a leading
word from the configured set), the title text and optional tags (a
trailing `:tag:`-delimited word). -/
def headlineParse (cs : List Char) (todo : List String) : Headline :=
  let stars := (cs.takeWhile (fun c => c = '*')).length
  let rest := trimSpaces (cs.drop stars)
  let ws := wordsOf rest
  let tagged :=
    match ws.getLast? with
    | some w =>
      if 2 ≤ w.length ∧ w.head? = some ':' ∧ w.getLast? = some ':' then
        (ws.dropLast, ((splitOnChar ':' w).filter (fun p => p ≠ [])).map List.asString)
      else (ws, [])
    | none => (ws, [])
  let kwTitle :=
    match tagged.1 with
    | w :: postKw =>
      if todo.contains w.asString then (some w.asString, postKw) else (none, w :: postKw)
    | [] => (none, [])
  { level := stars
    keyword := kwTitle.1
    title := String.intercalate " " (kwTitle.2.map List.asString)
    tags := tagged.2 }

/-- Modelled from the spec: `Keyword::parse` (`src/src/elements/keyword.rs`,
not among the given sources).  §4.2: a line-initial `#+KEY: VALUE` is a
keyword line; the parse yields the key and the value. -/
def keywordParse (cs : List Char) : Option (String × String) :=
  if cs.take 2 = ['#', '+'] then
    let rest := cs.drop 2
    let key := rest.takeWhile (fun c => ¬ (c = ':'))
    match rest.drop key.length with
    | ':' :: v => some (key.asString, (trimSpaces v).asString)
    | _ => none
  else none

/-- Modelled from the spec: `fn_def::parse` (`src/src/elements/fn_def.rs`,
not among the given sources).  §4.2/§6: a line-initial `[fn:LABEL]`
footnote definition yields its label; an unterminated bracket is no
match. -/
def fnDefParse (cs : List Char) : Option String :=
  if cs.take 4 = ['[', 'f', 'n', ':'] then
    let rest := cs.drop 4
    let label := rest.takeWhile (fun c => ¬ (c = ']'))
    match rest.drop label.length with
    | ']' :: _ => some label.asString
    | _ => none
  else none

/-- Embedding of the loop body of `metadata` (`src/src/tools.rs`, lines
12-27) over an already filtered line list: a `*`-initial line is pushed
as a headline exactly when every character before its first space is
`*`; otherwise a `#+`-initial line is pushed as a keyword when
`Keyword::parse` matches; otherwise a `[fn:`-initial line is pushed as a
footnote label when `fn_def::parse` matches. -/
def metadataLines : List (List Char) → List Headline × List (String × String) × List String
  | [] => ([], [], [])
  | l :: rest =>
    let acc := metadataLines rest
    if startsWithStar l then
      (if (l.take (firstSpaceIdx l)).all (fun c => c = '*') then
        headlineParse l DEFAULT_TODO_KEYWORDS :: acc.1
       else acc.1, acc.2.1, acc.2.2)
    else if l.take 2 = ['#', '+'] then
      match keywordParse l with
      | some kv => (acc.1, kv :: acc.2.1, acc.2.2)
      | none => acc
    else if l.take 4 = ['[', 'f', 'n', ':'] then
      match fnDefParse l with
      | some lab => (acc.1, acc.2.1, lab :: acc.2.2)
      | none => acc
    else acc

/-- Embedding of `metadata` (`src/src/tools.rs`, lines 9-30). -/
def metadata (src : String) : List Headline × List (String × String) × List String :=
  metadataLines (nonEmptyLines src)

/-- Embedding of `toc` (`src/src/tools.rs`, lines 32-34). -/
def toc (src : String) : List Headline :=
  (metadata src).1

/-- Embedding of `keywords` (`src/src/tools.rs`, lines 36-38). -/
def keywords (src : String) : List (String × String) :=
  (metadata src).2.1

/-- Embedding of `fn_def` (`src/src/tools.rs`, lines 40-42; renamed, the
original name is not available here). -/
def fnDefLabels (src : String) : List String :=
  (metadata src).2.2

/-! ## The parse entry point and the default HTML dispatch

The implementations (`Org::parse`, the tree assembly of
`src/orgize/src/parsers.rs`, `DefaultHtmlHandler`) are not among the
given sources; the definitions below are modelled from the spec. -/

/-- Modelled from the spec: the main grammar's headline test (§4.2: "a
run of `*` followed by a space"). -/
def isHeadlineLn (cs : List Char) : Bool :=
  let stars := (cs.takeWhile (fun c => c = '*')).length
  decide (0 < stars) &&
    (match cs.drop stars with
     | c :: _ => c = ' '
     | [] => false)

/-- The headline level of a line: its run of leading stars. -/
def starCount (cs : List Char) : Nat :=
  (cs.takeWhile (fun c => c = '*')).length

/-- Modelled from the spec: the inline-emphasis test of §4.2 specialised
to the bold marker: the line is a bold span when it is wrapped in `*`,
the body is non-empty, holds no further `*`, and does not touch the
markers with whitespace. -/
def validBold (cs : List Char) : Bool :=
  let inner := (cs.drop 1).dropLast
  cs.head? = some '*' && cs.getLast? = some '*' && decide (3 ≤ cs.length) &&
    inner.all (fun c => ¬ (c = '*')) &&
    !(inner.head? = some ' ') && !(inner.getLast? = some ' ')

/-- Modelled from the spec: inline parsing with plain-text fallback
(§4.2: emphasis with no valid closing marker is emitted as plain text;
§8: `*unterminated` parses as a single text leaf). -/
def parseInline (cs : List Char) : Forest :=
  if cs = [] then .nil
  else if validBold cs then
    .cons (.node .Bold (.cons (.node (.Text ((cs.drop 1).dropLast.asString)) .nil) .nil)) .nil
  else .cons (.node (.Text cs.asString) .nil) .nil

/-- Group the lines of a section body into blank-separated runs, the
paragraphs of §4.2/§4.3. -/
def blankGroups (acc : List (List Char)) : List (List Char) → List (List (List Char))
  | [] => if acc = [] then [] else [acc.reverse]
  | l :: rest =>
    if l = [] then
      (if acc = [] then [] else [acc.reverse]) ++ blankGroups [] rest
    else blankGroups (l :: acc) rest

/-- A paragraph node: the blank-separated run joined and parsed inline. -/
def paraNode (g : List (List Char)) : Node :=
  .node .Paragraph (parseInline (String.intercalate " " (g.map List.asString)).toList)

/-- A section node holding the paragraphs of its content lines. -/
def sectionNode (content : List (List Char)) : Node :=
  .node .Section (toForest ((blankGroups [] content).map paraNode))

/-- Modelled from the spec: the tree assembly of §4.3, fuelled by the
number of remaining lines.  A headline at level N groups everything
until the next headline of level ≤ N: first its title, then a section
holding the narrative content, then its sub-headlines.  Content before
the first headline forms a section of the enclosing container. -/
def parseLevel : Nat → List (List Char) → List Node
  | 0, _ => []
  | _ + 1, [] => []
  | fuel + 1, l :: rest =>
    if isHeadlineLn l then
      let lvl := starCount l
      let body := rest.takeWhile (fun x => !(isHeadlineLn x && decide (starCount x ≤ lvl)))
      let after := rest.drop body.length
      let content := body.takeWhile (fun x => !isHeadlineLn x)
      let subs := body.drop content.length
      let hd := headlineParse l DEFAULT_TODO_KEYWORDS
      Node.node .Headline (toForest
        (Node.node (.Title hd.level hd.keyword hd.title hd.tags) (parseInline hd.title.toList)
          :: (if content.filter (fun x => x ≠ []) = [] then [] else [sectionNode content])
          ++ parseLevel fuel subs))
        :: parseLevel fuel after
    else
      let content := (l :: rest).takeWhile (fun x => !isHeadlineLn x)
      let after := (l :: rest).drop content.length
      sectionNode content :: parseLevel fuel after

/-- Modelled from the spec: the parse entry point (§6 `parse`; `Org::parse`
of `src/orgize/src/lib.rs` line 14, implementation not among the given
sources).  Total over all strings; the root is always the `Document`
container. -/
def parse (src : String) : Node :=
  .node .Document (toForest (parseLevel (rustLines src).length (rustLines src)))

/-- Modelled from the spec: what the default HTML dispatch writes on
entering an element (§4.5; the doc example of `src/orgize/src/lib.rs`
lines 65-75 fixes the markup for document, title, section, paragraph and
bold). -/
def defaultStartWrite : Element → String
  | .Document => "<main>"
  | .Section => "<section>"
  | .Paragraph => "<p>"
  | .Bold => "<b>"
  | .Italic => "<i>"
  | .Strike => "<s>"
  | .Underline => "<u>"
  | .Text v => v
  | .Title lvl _ _ _ => "<h" ++ toString lvl ++ ">"
  | _ => ""

/-- Modelled from the spec: what the default HTML dispatch writes on
leaving an element (§4.5: `leave` writes closing markup for containers
and is a no-op for leaf kinds). -/
def defaultEndWrite : Element → String
  | .Document => "</main>"
  | .Section => "</section>"
  | .Paragraph => "</p>"
  | .Bold => "</b>"
  | .Italic => "</i>"
  | .Strike => "</s>"
  | .Underline => "</u>"
  | .Title lvl _ _ _ => "</h" ++ toString lvl ++ ">"
  | _ => ""

/-- Modelled from the spec: the `end` operation of the default dispatch
(§4.5, `HtmlHandler::end` of the orgize crate): it may fail with a
caller-defined error kind, and on success yields what it wrote to the
sink. -/
def defaultEnd (e : Element) : Except String String :=
  Except.ok (defaultEndWrite e)

/-- Modelled from the spec: the `start` operation of the default
dispatch. -/
def defaultStart (e : Element) : Except String String :=
  Except.ok (defaultStartWrite e)

/-- What one event writes through the default dispatch. -/
def evWrite : Event → String
  | .Start e => defaultStartWrite e
  | .End e => defaultEndWrite e

/-- Modelled from the spec: `Org::html` (§6 rendering interface,
`src/orgize/src/lib.rs` lines 65-75): drive the default dispatch over
the event sequence and concatenate what it writes. -/
def renderHtml (n : Node) : String :=
  String.join ((events n).map evWrite)

/-! ## The serde-style interchange representation -/

/-- A tagged-record interchange value (JSON-like). -/
inductive Json : Type where
  | str (s : String) : Json
  | num (n : Nat) : Json
  | nul : Json
  | arr (xs : List Json) : Json
  | obj (fields : List (String × Json)) : Json

/-- The `type` tag of each element: the Rust variant name in snake_case,
per the serde attribute `#[serde(tag = "type", rename_all =
"snake_case")]` on `Element` (`src/src/elements/mod.rs` lines 53-54). -/
def typeName : Element → String
  | .Block => "block"
  | .BabelCall => "babel_call"
  | .Section => "section"
  | .Clock => "clock"
  | .Cookie => "cookie"
  | .RadioTarget => "radio_target"
  | .Drawer => "drawer"
  | .Document => "document"
  | .DynBlock => "dyn_block"
  | .FnDef _ => "fn_def"
  | .FnRef => "fn_ref"
  | .Headline => "headline"
  | .InlineCall => "inline_call"
  | .InlineSrc => "inline_src"
  | .Keyword _ _ => "keyword"
  | .Link => "link"
  | .List => "list"
  | .ListItem => "list_item"
  | .Macros => "macros"
  | .Planning => "planning"
  | .Snippet => "snippet"
  | .Text _ => "text"
  | .Paragraph => "paragraph"
  | .Rule => "rule"
  | .Timestamp => "timestamp"
  | .Target => "target"
  | .Bold => "bold"
  | .Strike => "strike"
  | .Italic => "italic"
  | .Underline => "underline"
  | .Verbatim _ => "verbatim"
  | .Code _ => "code"
  | .Comment _ => "comment"
  | .FixedWidth _ => "fixed_width"
  | .Title _ _ _ _ => "title"

/-- The intrinsic fields of an element, as serde serializes the variant
payloads kept in this embedding. -/
def intrinsicFields : Element → List (String × Json)
  | .FnDef label => [("label", .str label)]
  | .Keyword k v => [("key", .str k), ("value", .str v)]
  | .Text v => [("value", .str v)]
  | .Verbatim v => [("value", .str v)]
  | .Code v => [("value", .str v)]
  | .Comment v => [("value", .str v)]
  | .FixedWidth v => [("value", .str v)]
  | .Title lvl kw raw tags =>
    [("level", .num lvl),
     ("keyword", kw.elim Json.nul Json.str),
     ("raw", .str raw),
     ("tags", .arr (tags.map Json.str))]
  | _ => []

mutual
/-- Modelled from the spec: the interchange mapping (§6: every node
becomes a tagged record `{type, ...fields..., children}` for containers
and `{type, ...fields}` with no children key for leaves; the serde
implementation for the tree is not among the given sources, its shape is
documented in `src/orgize/src/lib.rs` lines 175-204).  The container
test is the embedded `Element.isContainer` of `src/src/elements/mod.rs`. -/
def serializeNode : Node → Json
  | .node e kids =>
    .obj ([("type", .str (typeName e))] ++ intrinsicFields e ++
      (if e.isContainer then [("children", .arr (serializeForest kids))] else []))
/-- `serializeNode` over a sibling list. -/
def serializeForest : Forest → List Json
  | .nil => []
  | .cons n t => serializeNode n :: serializeForest t
end

/-- The keys of a serialized record (empty for non-records). -/
def objKeys : Json → List String
  | .obj fields => fields.map Prod.fst
  | _ => []

/-- Look a key up in a serialized record. -/
def jsonLookup (k : String) : Json → Option Json
  | .obj fields => (fields.find? (fun p => p.1 = k)).map Prod.snd
  | _ => none

/-! ## Per-line classifiers

One `Option`-valued classifier per branch of the scan loop of
`src/src/tools.rs`, mirroring its `if` / `else if` cascade; used to
state that the scan is an order-preserving projection of the line
sequence. -/

/-- What (if anything) the scan collects from one line as a headline:
the first branch of the cascade (`src/src/tools.rs` lines 13-17). -/
def headlineOf (l : List Char) : Option Headline :=
  if startsWithStar l then
    if (l.take (firstSpaceIdx l)).all (fun c => c = '*') then
      some (headlineParse l DEFAULT_TODO_KEYWORDS)
    else none
  else none

/-- What the scan collects from one line as a keyword pair: the second
branch of the cascade (`src/src/tools.rs` lines 18-21). -/
def keywordOf (l : List Char) : Option (String × String) :=
  if startsWithStar l then none
  else if l.take 2 = ['#', '+'] then keywordParse l
  else none

/-- What the scan collects from one line as a footnote label: the third
branch of the cascade (`src/src/tools.rs` lines 22-25). -/
def footnoteOf (l : List Char) : Option String :=
  if startsWithStar l then none
  else if l.take 2 = ['#', '+'] then none
  else if l.take 4 = ['[', 'f', 'n', ':'] then fnDefParse l
  else none

/-- A line of `n` stars and nothing else. -/
def starLine (n : Nat) : List Char :=
  List.replicate n '*'

/-! ## Theorems -/

/-- C1 counterexample: the claim's classification calls a title a leaf,
but `Element::is_container` (`src/src/elements/mod.rs` line 108) returns
`true` for `Element::Title`. -/
theorem isContainer_title_cex :
    Element.isContainer (Element.Title 1 none "" []) = true ∧
    specIsContainer (Element.Title 1 none "" []) = false := by
  decide

/-- C1 (amended): `is_container` returns `true` exactly for the kinds
the spec lists as containers plus `Title`; every other kind is a leaf. -/
theorem isContainer_classification (e : Element) :
    e.isContainer = (specIsContainer e || e.isTitle) := by
  cases e <;> rfl

/-- C3: the parse entry point is a total function (a Lean `def`, so it
never raises) and for every input string — empty, arbitrary or holding
unterminated constructs — the root of the tree is the `Document`
container. -/
theorem parse_total_root_document (src : String) :
    (parse src).el = Element.Document := rfl

/-- C5: parsing `"* DONE Title :tag:\n*section*"` under the default
configuration yields a tree containing the headline's title element with
todo keyword `DONE`, title text `Title` and tags `["tag"]` (plus a
headline node), and rendering through the default dispatch produces
`<main><h1>Title</h1><section><p><b>section</b></p></section></main>`. -/
theorem roundtrip_example :
    0 < countElem (Element.Title 1 (some "DONE") "Title" ["tag"])
        (parse "* DONE Title :tag:\n*section*") ∧
    0 < countElem Element.Headline (parse "* DONE Title :tag:\n*section*") ∧
    renderHtml (parse "* DONE Title :tag:\n*section*") =
      "<main><h1>Title</h1><section><p><b>section</b></p></section></main>" := by
  decide

/-- C7: for every leaf (non-container) element the default dispatch's
`end` operation writes nothing to the sink and returns success. -/
theorem leaf_end_noop (e : Element) (h : e.isContainer = false) :
    defaultEnd e = Except.ok "" := by
  cases e <;> simp_all [Element.isContainer, defaultEnd, defaultEndWrite]

/-- C7 witness: the `Rule` leaf. -/
theorem leaf_end_noop_witness :
    Element.isContainer Element.Rule = false ∧
    defaultEnd Element.Rule = Except.ok "" :=
  ⟨rfl, leaf_end_noop Element.Rule rfl⟩

/-- C2 counterexample: in the parsed document for `"hello"` the text run
`hello` is a leaf, yet the event stream holds an `End` event for it —
against "for each leaf node it emits a Start event with no End event". -/
theorem leaf_end_event_cex :
    Element.isContainer (Element.Text "hello") = false ∧
    Event.End (Element.Text "hello") ∈ events (parse "hello") := by
  decide

/-- Helper: `Start e` occurs in a node's event list once per node
wrapping `e`. -/
theorem count_start_events (e : Element) (n : Node) :
    (events n).count (Event.Start e) = countElem e n := by
  induction n using Node.rec
    (motive_2 := fun f => (eventsF f).count (Event.Start e) = countElemF e f) with
  | node el kids ih =>
    by_cases h : el = e <;>
      simp [events, countElem, List.count_cons, List.count_append, ih, h, Nat.add_comm]
  | nil => simp [eventsF, countElemF]
  | cons hd tl ih1 ih2 =>
    simp [eventsF, countElemF, List.count_append, ih1, ih2]

/-- Helper: `End e` occurs in a node's event list once per node
wrapping `e`. -/
theorem count_end_events (e : Element) (n : Node) :
    (events n).count (Event.End e) = countElem e n := by
  induction n using Node.rec
    (motive_2 := fun f => (eventsF f).count (Event.End e) = countElemF e f) with
  | node el kids ih =>
    by_cases h : el = e <;>
      simp [events, countElem, List.count_cons, List.count_append, ih, h, Nat.add_comm]
  | nil => simp [eventsF, countElemF]
  | cons hd tl ih1 ih2 =>
    simp [eventsF, countElemF, List.count_append, ih1, ih2]

/-- C2 (amended): for every tree and every element, the event stream
holds exactly one `Start` and exactly one `End` per node wrapping that
element — for containers and leaves alike. -/
theorem events_start_end_per_node (n : Node) (e : Element) :
    (events n).count (Event.Start e) = countElem e n ∧
    (events n).count (Event.End e) = countElem e n :=
  ⟨count_start_events e n, count_end_events e n⟩

/-- Helper: taking up to the first space is taking while not a space. -/
theorem take_firstSpaceIdx (cs : List Char) :
    cs.take (firstSpaceIdx cs) = cs.takeWhile (fun c => c ≠ ' ') := by
  induction cs with
  | nil => rfl
  | cons c cs ih =>
    by_cases h : c = ' ' <;> simp [firstSpaceIdx, h, List.takeWhile_cons, ih]

/-- Helper: the scan is the order-preserving projection of the line
sequence through the three per-line classifiers. -/
theorem metadataLines_eq_filterMap (ls : List (List Char)) :
    metadataLines ls =
      (ls.filterMap headlineOf, ls.filterMap keywordOf, ls.filterMap footnoteOf) := by
  induction ls with
  | nil => rfl
  | cons l rest ih =>
    simp only [metadataLines, ih, List.filterMap_cons]
    by_cases hs : startsWithStar l
    · by_cases ha : (l.take (firstSpaceIdx l)).all (fun c => c = '*') <;>
        simp [headlineOf, keywordOf, footnoteOf, hs, ha]
    · by_cases h2 : l.take 2 = ['#', '+']
      · cases hk : keywordParse l <;>
          simp [headlineOf, keywordOf, footnoteOf, hs, h2, hk]
      · by_cases h4 : l.take 4 = ['[', 'f', 'n', ':']
        · cases hf : fnDefParse l <;>
            simp [headlineOf, keywordOf, footnoteOf, hs, h2, h4, hf]
        · simp [headlineOf, keywordOf, footnoteOf, hs, h2, h4]

/-- C8: `toc`, `keywords` and `fnDefLabels` each return their results in
source order — every returned list is the order-preserving projection of
the input's non-empty line sequence through the corresponding per-line
classifier, and all three are computed by the single line scan
`metadataLines` without building a tree. -/
theorem queries_source_order (src : String) :
    toc src = (nonEmptyLines src).filterMap headlineOf ∧
    keywords src = (nonEmptyLines src).filterMap keywordOf ∧
    fnDefLabels src = (nonEmptyLines src).filterMap footnoteOf := by
  have h := metadataLines_eq_filterMap (nonEmptyLines src)
  exact ⟨congrArg (fun t => t.1) h,
    congrArg (fun t => t.2.1) h, congrArg (fun t => t.2.2) h⟩

/-- C4: the metadata scan collects a line as a headline only if every
character before its first space is `*`; a line whose initial run mixes
`*` with another character before the first space is never collected. -/
theorem metadata_headline_only_all_stars (l : List Char)
    (h : (metadataLines [l]).1 ≠ []) :
    (l.takeWhile (fun c => c ≠ ' ')).all (fun c => c = '*') = true := by
  rw [← take_firstSpaceIdx]
  rw [metadataLines_eq_filterMap] at h
  simp only [List.filterMap_cons, List.filterMap_nil] at h
  by_cases hs : startsWithStar l
  · by_cases ha : (l.take (firstSpaceIdx l)).all (fun c => c = '*')
    · exact ha
    · simp [headlineOf, hs, ha] at h
  · simp [headlineOf, hs] at h

/-- C4 witness: the line `** a`. -/
theorem metadata_headline_only_all_stars_witness :
    (metadataLines [['*', '*', ' ', 'a']]).1 ≠ [] ∧
    ((['*', '*', ' ', 'a'] : List Char).takeWhile
      (fun c => c ≠ ' ')).all (fun c => c = '*') = true :=
  ⟨by decide, metadata_headline_only_all_stars ['*', '*', ' ', 'a'] (by decide)⟩

/-- C9: the metadata scan ignores empty lines — its output (and hence
that of `toc`, `keywords` and `fnDefLabels`) depends only on the
sequence of non-empty lines, so inserting or deleting empty lines
anywhere never changes a result. -/
theorem metadata_depends_on_nonempty_lines (s t : String)
    (h : nonEmptyLines s = nonEmptyLines t) :
    metadata s = metadata t ∧ toc s = toc t ∧
    keywords s = keywords t ∧ fnDefLabels s = fnDefLabels t := by
  unfold metadata toc keywords fnDefLabels metadata
  rw [h]
  exact ⟨rfl, rfl, rfl, rfl⟩

/-- C9 witness: inserting two empty lines between the two lines of
`"* A\n#+K: v"` changes nothing. -/
theorem metadata_depends_on_nonempty_lines_witness :
    nonEmptyLines "* A\n\n\n#+K: v" = nonEmptyLines "* A\n#+K: v" ∧
    metadata "* A\n\n\n#+K: v" = metadata "* A\n#+K: v" := by
  refine ⟨by decide, ?_⟩
  exact (metadata_depends_on_nonempty_lines "* A\n\n\n#+K: v" "* A\n#+K: v" (by decide)).1

/-- Helper: splitting at a character that does not occur yields the
single whole piece. -/
theorem splitOnChar_not_mem (sep : Char) (cs : List Char) (h : sep ∉ cs) :
    splitOnChar sep cs = [cs] := by
  induction cs with
  | nil => rfl
  | cons c cs ih =>
    simp only [List.mem_cons, not_or] at h
    rw [splitOnChar, if_neg (fun hc => h.1 hc.symm), ih h.2]

/-- Helper: the first-space index of an all-star line is its length. -/
theorem firstSpaceIdx_starLine (n : Nat) : firstSpaceIdx (starLine n) = n := by
  induction n with
  | zero => rfl
  | succ m ih =>
    simp [starLine, List.replicate_succ, firstSpaceIdx] at ih ⊢
    exact ih

/-- Helper: parsing an all-star line yields level `n`, no keyword, an
empty title and no tags. -/
theorem headlineParse_starLine (n : Nat) (todo : List String) :
    headlineParse (starLine n) todo = ⟨n, none, "", []⟩ := by
  simp [headlineParse, starLine, List.takeWhile_replicate, List.drop_replicate,
    trimSpaces, wordsOf, splitOnChar]
  rfl

/-- C10: a non-empty line consisting solely of stars (no space at all)
is still collected by the metadata scan as a headline, whose level is
the full length of the line. -/
theorem all_star_line_is_headline (n : Nat) (h : 0 < n) :
    metadata (String.mk (starLine n)) = ([⟨n, none, "", []⟩], [], []) ∧
    (String.mk (starLine n)).length = n := by
  obtain ⟨m, rfl⟩ := Nat.exists_eq_add_of_lt h
  constructor
  · have hsplit : splitOnChar '\n' (String.mk (starLine (0 + m + 1))).toList
        = [starLine (0 + m + 1)] := by
      apply splitOnChar_not_mem
      simp [starLine, List.mem_replicate]
    have hlines : rustLines (String.mk (starLine (0 + m + 1))) = [starLine (0 + m + 1)] := by
      rw [rustLines]
      simp only [hsplit]
      rw [if_neg (by simp [starLine, List.replicate_succ])]
      simp [stripCR, starLine, List.getLast?_replicate]
    rw [metadata, nonEmptyLines, hlines]
    rw [List.filter_cons_of_pos (by simp [starLine, List.replicate_succ]), List.filter_nil]
    rw [metadataLines, metadataLines]
    rw [if_pos ?hstar]
    case hstar => simp [starLine, List.replicate_succ, startsWithStar]
    rw [if_pos ?hall]
    case hall => simp [firstSpaceIdx_starLine, starLine, List.take_replicate, List.all_replicate]
    rw [headlineParse_starLine]
  · simp [starLine, String.length]

/-- C10 witness: the line `***`. -/
theorem all_star_line_is_headline_witness :
    0 < 3 ∧
    (metadata (String.mk (starLine 3)) = ([⟨3, none, "", []⟩], [], []) ∧
      (String.mk (starLine 3)).length = 3) :=
  ⟨by decide, all_star_line_is_headline 3 (by decide)⟩

/-- C6: every serialized node is a tagged record whose first field is
`type` holding the construct kind in snake_case, and it carries a
`children` key exactly when the element is a container. -/
theorem serialize_tagged_children (n : Node) :
    jsonLookup "type" (serializeNode n) = some (.str (typeName n.el)) ∧
    ((objKeys (serializeNode n)).contains "children") = (n.el).isContainer := by
  cases n with
  | node e kids =>
    cases e <;>
      simp [serializeNode, jsonLookup, objKeys, typeName, intrinsicFields,
        Node.el, Element.isContainer, List.find?]
